import Mathlib

/-!
Verification of the AgentCore workflow-orchestration core against its
natural-language specification.  The repository snapshot contains the
documentation, notebooks, Dockerfiles and configuration of the system; the
Python implementation modules (memory/vector_memory.py, the tool
orchestrator, the agents package) are referenced by the notebooks but are
not part of the snapshot, so those components are modelled here from the
specification text and checked against it.  The two pieces of executable
code that do appear verbatim in the snapshot — the get_ollama_embedding
helper defined in notebooks/debug/01_debug_panel_demo.ipynb and the
step-execution loop of the 02 workflow-demo notebook — are embedded
directly from that source.
-/

/- ===================== Memory Store ===================== -/

/-- Modelled from the spec: a MemoryRecord per section 3 of the spec —
text plus vector plus metadata (kind, timestamp) and an optional TTL
expiry.  The Python class VectorMemory (memory/vector_memory.py) is not in
the snapshot.  Embedding vectors are rational-valued lists. -/
structure MemoryRecord where
  rid : Nat
  text : String
  vector : List Rat
  kind : String
  timestamp : Nat
  ttl_expiry : Option Nat
deriving Repr, DecidableEq

/-- Modelled from the spec: a named collection of the Memory Store with its
fixed embedding dimension and retention policy (max_items); records are
kept in insertion order. -/
structure VectorMemory where
  dimension : Nat
  max_items : Nat
  records : List MemoryRecord
deriving Repr, DecidableEq

/-- Modelled from the spec: a record is expired at time now when its
ttl_expiry has passed. -/
def expiredAt (now : Nat) (r : MemoryRecord) : Bool :=
  match r.ttl_expiry with
  | none => false
  | some t => t ≤ now

/-- Modelled from the spec: the optional metadata.kind filter of search. -/
def kindMatches (kf : Option String) (r : MemoryRecord) : Bool :=
  match kf with
  | none => true
  | some s => r.kind == s

/-- Modelled from the spec: the search ranking — descending similarity
score, ties broken by most-recent timestamp first.  rankLE a b holds when
a is ranked at least as high as b. -/
def rankLE (a b : MemoryRecord × Rat) : Prop :=
  b.2 < a.2 ∨ (a.2 = b.2 ∧ b.1.timestamp ≤ a.1.timestamp)

instance : DecidableRel rankLE := fun a b =>
  inferInstanceAs (Decidable (b.2 < a.2 ∨ (a.2 = b.2 ∧ b.1.timestamp ≤ a.1.timestamp)))

instance : IsTotal (MemoryRecord × Rat) rankLE where
  total a b := by
    rcases lt_trichotomy a.2 b.2 with h | h | h
    · exact Or.inr (Or.inl h)
    · rcases Nat.le_total b.1.timestamp a.1.timestamp with hts | hts
      · exact Or.inl (Or.inr ⟨h, hts⟩)
      · exact Or.inr (Or.inr ⟨h.symm, hts⟩)
    · exact Or.inl (Or.inl h)

instance : IsTrans (MemoryRecord × Rat) rankLE where
  trans a b c hab hbc := by
    rcases hab with hab | ⟨hab, habts⟩ <;> rcases hbc with hbc | ⟨hbc, hbcts⟩
    · exact Or.inl (lt_trans hbc hab)
    · exact Or.inl (hbc ▸ hab)
    · exact Or.inl (hab ▸ hbc)
    · exact Or.inr ⟨hab.trans hbc, Nat.le_trans hbcts habts⟩

/-- Modelled from the spec: search(query_text, k, kind_filter?) of the
Memory Store (VectorMemory.search_memory in the notebooks).  The external
embedding of the query and the similarity backend are abstracted as the
function sim, which scores a stored vector against the query.  Search is
restricted to non-expired records of the collection, optionally filtered
by kind, ranked by descending similarity with timestamp tie-break, and
truncated to k results. -/
def VectorMemory.search_memory (m : VectorMemory) (sim : List Rat → Rat)
    (now : Nat) (k : Nat) (kf : Option String) : List (MemoryRecord × Rat) :=
  let live := m.records.filter (fun r => !expiredAt now r && kindMatches kf r)
  let scored := live.map (fun r => (r, sim r.vector))
  (scored.insertionSort rankLE).take k

/-- Modelled from the spec: ordering of records by timestamp, oldest
first, used by the second eviction tier. -/
def tsLE (a b : MemoryRecord) : Prop :=
  a.timestamp ≤ b.timestamp

instance : DecidableRel tsLE := fun a b =>
  inferInstanceAs (Decidable (a.timestamp ≤ b.timestamp))

instance : IsTotal MemoryRecord tsLE where
  total a b := Nat.le_total a.timestamp b.timestamp

instance : IsTrans MemoryRecord tsLE where
  trans _ _ _ hab hbc := Nat.le_trans hab hbc

/-- Modelled from the spec: evict() — first remove every record whose
ttl_expiry has passed; if the collection still exceeds max_items, remove
the oldest remaining records by timestamp until at or below capacity. -/
def VectorMemory.evict (now : Nat) (m : VectorMemory) : VectorMemory :=
  let live := m.records.filter (fun r => !expiredAt now r)
  if live.length ≤ m.max_items then
    { m with records := live }
  else
    { m with records := (live.insertionSort tsLE).drop (live.length - m.max_items) }

/-- Modelled from the spec: storing a fully-built record then applying the
eviction policy, the tail end of insert. -/
def VectorMemory.insertRecord (m : VectorMemory) (now : Nat)
    (r : MemoryRecord) : VectorMemory :=
  VectorMemory.evict now { m with records := m.records ++ [r] }

/-- Modelled from the spec: the failure modes of Memory Store insert. -/
inductive InsertError where
  | DimensionMismatch
  | EmbeddingUnavailable
deriving Repr, DecidableEq

/-- Modelled from the spec: one response of the external embedding
collaborator — either a vector or a structured failure. -/
abbrev EmbedResponse := Except String (List Rat)

/-- Modelled from the spec: insert(text, metadata) of the Memory Store.
The external embedding collaborator is modelled as an oracle list of
responses consumed one per call, so that the number of embedding calls an
insert makes is observable: insert consumes exactly the head.  An erroring
embedding call fails the insert with EmbeddingUnavailable without any
internal retry; a vector of the wrong dimension fails the insert with
DimensionMismatch; otherwise the record is stored and eviction applied. -/
def VectorMemory.insert (m : VectorMemory) (oracle : List EmbedResponse)
    (now : Nat) (text : String) (kind : String) (rid : Nat)
    (ttl : Option Nat) : (Except InsertError VectorMemory) × List EmbedResponse :=
  match oracle with
  | [] => (Except.error InsertError.EmbeddingUnavailable, [])
  | resp :: rest =>
    match resp with
    | Except.error _ => (Except.error InsertError.EmbeddingUnavailable, rest)
    | Except.ok v =>
      if v.length = m.dimension then
        (Except.ok (m.insertRecord now
          { rid := rid, text := text, vector := v, kind := kind,
            timestamp := now, ttl_expiry := ttl }), rest)
      else
        (Except.error InsertError.DimensionMismatch, rest)

/- ===================== Tool Dispatcher ===================== -/

/-- Modelled from the spec: the outcome of one invocation attempt as seen
at the dispatch boundary — success with output, a timeout, a transient
transport error, or a tool-reported logical failure.  The Python
ToolOrchestrator.execute_tool implementation is not in the snapshot. -/
inductive AttemptOutcome where
  | success (output : String)
  | timeout
  | transportError (msg : String)
  | logicalFailure (msg : String)
deriving Repr, DecidableEq

/-- Modelled from the spec: transport-level failures are the only retry
triggers. -/
def AttemptOutcome.isTransportFailure : AttemptOutcome → Bool
  | AttemptOutcome.timeout => true
  | AttemptOutcome.transportError _ => true
  | _ => false

/-- Modelled from the spec: the message carried by a failing attempt. -/
def AttemptOutcome.errMsg : AttemptOutcome → String
  | AttemptOutcome.timeout => "timeout"
  | AttemptOutcome.transportError m => m
  | AttemptOutcome.logicalFailure m => m
  | AttemptOutcome.success _ => ""

/-- Modelled from the spec: the terminal ToolResult the Step Executor
always receives — success with output, or failure with a structured error,
the attempt count, and the retry-exhaustion flag. -/
structure ToolResult where
  success : Bool
  output : Option String
  error : Option String
  attempt_count : Nat
  exhausted : Bool
deriving Repr, DecidableEq

/-- Modelled from the spec: the dispatcher retry loop.  transport gives
the outcome of each numbered attempt (the cross-container transport is
external); attempt is the number of the attempt about to run and the last
argument the remaining attempt budget.  Success and logical failure are
terminal; timeout and transport errors retry while budget remains and
otherwise return the last error with the exhaustion flag set. -/
def executeAttempts (transport : Nat → AttemptOutcome) (attempt : Nat) :
    Nat → ToolResult
  | 0 => { success := false, output := none, error := some "no attempts allowed",
           attempt_count := attempt - 1, exhausted := true }
  | remaining + 1 =>
    match transport attempt with
    | AttemptOutcome.success out =>
      { success := true, output := some out, error := none,
        attempt_count := attempt, exhausted := false }
    | AttemptOutcome.logicalFailure msg =>
      { success := false, output := none, error := some msg,
        attempt_count := attempt, exhausted := false }
    | AttemptOutcome.timeout =>
      if remaining = 0 then
        { success := false, output := none, error := some "timeout",
          attempt_count := attempt, exhausted := true }
      else executeAttempts transport (attempt + 1) remaining
    | AttemptOutcome.transportError msg =>
      if remaining = 0 then
        { success := false, output := none, error := some msg,
          attempt_count := attempt, exhausted := true }
      else executeAttempts transport (attempt + 1) remaining

/-- Modelled from the spec: invoke(tool_name, payload, timeout,
max_retries) — the bounded retry loop starting at attempt 1 with a total
budget of max_retries attempts.  It always returns a ToolResult; there is
no exception path. -/
def execute_tool (transport : Nat → AttemptOutcome) (max_retries : Nat) :
    ToolResult :=
  executeAttempts transport 1 max_retries

/- ===================== Tool Registry ===================== -/

/-- Modelled from the spec: a registry entry per section 3 of the spec. -/
structure ToolDescriptor where
  name : String
  endpoint : String
  capabilities : List String
  last_seen_healthy : Nat
  consecutive_failures : Nat
deriving Repr, DecidableEq

/-- Modelled from the spec: the Tool Registry — registered descriptors and
the configured unhealthy threshold. -/
structure ToolRegistry where
  tools : List ToolDescriptor
  unhealthy_threshold : Nat
deriving Repr, DecidableEq

/-- Modelled from the spec: the failure modes of resolve. -/
inductive ResolveError where
  | ToolNotFound
  | ToolUnavailable
deriving Repr, DecidableEq

/-- Modelled from the spec: a descriptor satisfies a capability
requirement when every required capability is declared. -/
def ToolDescriptor.hasCapabilities (d : ToolDescriptor)
    (req : List String) : Bool :=
  req.all (fun c => d.capabilities.contains c)

/-- Modelled from the spec: resolve(tool_name, required_capabilities) —
ToolNotFound when no registered tool has the name, ToolUnavailable when
consecutive_failures is at or above the unhealthy threshold or a required
capability is missing. -/
def ToolRegistry.resolve (reg : ToolRegistry) (tool_name : String)
    (req : List String) : Except ResolveError ToolDescriptor :=
  match reg.tools.find? (fun d => d.name == tool_name) with
  | none => Except.error ResolveError.ToolNotFound
  | some d =>
    if reg.unhealthy_threshold ≤ d.consecutive_failures then
      Except.error ResolveError.ToolUnavailable
    else if d.hasCapabilities req then Except.ok d
    else Except.error ResolveError.ToolUnavailable

/-- Modelled from the spec: the effect of one liveness probe on one
descriptor — a successful probe resets consecutive_failures to 0 and
updates last_seen_healthy, a failed probe increments
consecutive_failures. -/
def probeDescriptor (alive : String → Bool) (now : Nat)
    (d : ToolDescriptor) : ToolDescriptor :=
  if alive d.name then
    { d with consecutive_failures := 0, last_seen_healthy := now }
  else
    { d with consecutive_failures := d.consecutive_failures + 1 }

/-- Modelled from the spec: probe_all() — probes every registered tool;
the probe transport result per tool name is external and abstracted as
alive. -/
def ToolRegistry.probe_all (reg : ToolRegistry) (alive : String → Bool)
    (now : Nat) : ToolRegistry :=
  { reg with tools := reg.tools.map (probeDescriptor alive now) }

/- ===================== Planner ===================== -/

/-- Modelled from the spec: the status of a plan step. -/
inductive StepStatus where
  | pending
  | running
  | succeeded
  | failed
  | skipped
deriving Repr, DecidableEq

/-- Modelled from the spec: a Step record of a Plan — index, description,
optional tool hint, status. -/
structure PlanStep where
  index : Nat
  description : String
  tool_hint : Option String
  status : StepStatus
deriving Repr, DecidableEq

/-- Modelled from the spec: splitting the generation response into lines
at newline characters (accumulator holds the current line reversed). -/
def splitLinesAux : List Char → List Char → List (List Char)
  | [], acc => [acc.reverse]
  | c :: rest, acc =>
    if c = '\n' then acc.reverse :: splitLinesAux rest []
    else splitLinesAux rest (c :: acc)

/-- Modelled from the spec: the list of lines of a response. -/
def splitLines (cs : List Char) : List (List Char) :=
  splitLinesAux cs []

/-- Modelled from the spec: removal of the spaces between the numbering
and the step description. -/
def stripLeadingSpaces : List Char → List Char
  | [] => []
  | c :: rest => if c = ' ' then stripLeadingSpaces rest else c :: rest

/-- Modelled from the spec: the line/numbering convention of the Planner
parse (PlanningAgent.plan, implementation not in the snapshot): a line
matches when it starts with one or more digits followed by a dot, and its
step description is the remainder with leading spaces removed; any other
line yields none. -/
def parseLineChars (cs : List Char) : Option (List Char) :=
  let digits := cs.takeWhile Char.isDigit
  let rest := cs.dropWhile Char.isDigit
  if digits.isEmpty then none
  else
    match rest with
    | '.' :: tail => some (stripLeadingSpaces tail)
    | _ => none

/-- Modelled from the spec: numbering the parsed descriptions into Step
records, in order, starting at index i; hints are absent and every fresh
step is pending. -/
def numberSteps (i : Nat) : List String → List PlanStep
  | [] => []
  | d :: rest =>
    { index := i, description := d, tool_hint := none,
      status := StepStatus.pending } :: numberSteps (i + 1) rest

/-- Modelled from the spec: PlanningAgent.plan applied to the generation
response — parse every line against the numbering convention, drop the
lines that do not match, and number the surviving descriptions in order.
Parsing zero steps yields the empty plan, not an error. -/
def PlanningAgent.plan (response : String) : List PlanStep :=
  numberSteps 1
    (((splitLines response.toList).filterMap parseLineChars).map
      (fun cs => String.mk cs))

/- ===================== Workflow Engine ===================== -/

/-- Modelled from the spec: the reason carried by an Aborted terminal
state. -/
inductive AbortReason where
  | EmptyPlan
  | StepFailed (idx : Nat)
deriving Repr, DecidableEq

/-- Modelled from the spec: the terminal status of a workflow run. -/
inductive RunStatus where
  | Completed
  | Aborted (reason : AbortReason)
deriving Repr, DecidableEq

/-- Modelled from the spec: a StepOutcome record. -/
structure StepOutcome where
  step_index : Nat
  success : Bool
  output : String
  error : Option String
deriving Repr, DecidableEq

/-- Modelled from the spec: the Executing phase under the default abort
failure policy — steps run in plan order through the Step Executor
(abstracted as exec), each producing one StepOutcome; the first failed
outcome aborts the run. -/
def runPlanSteps (exec : PlanStep → StepOutcome) :
    List PlanStep → List StepOutcome × RunStatus
  | [] => ([], RunStatus.Completed)
  | s :: rest =>
    let o := exec s
    if o.success then
      let t := runPlanSteps exec rest
      (o :: t.1, t.2)
    else ([o], RunStatus.Aborted (AbortReason.StepFailed s.index))

/-- Modelled from the spec: the Workflow Engine state machine
(implementation not in the snapshot) — Planning calls the Planner on the
generation collaborator's response; an empty plan transitions directly to
Aborted with reason EmptyPlan, otherwise the Executing loop runs. -/
def WorkflowEngine.run (generate : String → String)
    (exec : PlanStep → StepOutcome) (task : String) :
    List StepOutcome × RunStatus :=
  let plan := PlanningAgent.plan (generate task)
  if plan.isEmpty then ([], RunStatus.Aborted AbortReason.EmptyPlan)
  else runPlanSteps exec plan

/- ============ get_ollama_embedding (from the debug notebook) ============ -/

/-- An HTTP response as consumed by get_ollama_embedding: a status code
and the parsed JSON body, whose fields map names to numeric arrays. -/
structure HttpResponse where
  status_code : Nat
  body : List (String × List Rat)
deriving Repr, DecidableEq

/-- The exceptions get_ollama_embedding can raise: an HTTP error status
from raise_for_status, or a missing body field from the dictionary
lookup. -/
inductive RequestError where
  | HTTPStatusError (code : Nat)
  | KeyMissing (key : String)
deriving Repr, DecidableEq

/-- Response.raise_for_status of the requests library as used by the
notebook: raises for a 4xx or 5xx status code, otherwise does nothing. -/
def raise_for_status (resp : HttpResponse) : Except RequestError Unit :=
  if 400 ≤ resp.status_code ∧ resp.status_code < 600 then
    Except.error (RequestError.HTTPStatusError resp.status_code)
  else Except.ok ()

/-- The get_ollama_embedding function of
notebooks/debug/01_debug_panel_demo.ipynb, embedded from the source: POST
the model and prompt to the Ollama embeddings endpoint (the HTTP transport
abstracted as post), raise for an error status, and return the embedding
field of the response JSON. -/
def get_ollama_embedding
    (post : String → List (String × String) → HttpResponse)
    (text : String) (model : String) : Except RequestError (List Rat) :=
  let url := "http://localhost:11434/api/embeddings"
  let payload := [("model", model), ("prompt", text)]
  let response := post url payload
  match raise_for_status response with
  | Except.error e => Except.error e
  | Except.ok _ =>
    match List.lookup "embedding" response.body with
    | some v => Except.ok v
    | none => Except.error (RequestError.KeyMissing "embedding")

/-- The default value of the model parameter of get_ollama_embedding in
the notebook source. -/
def get_ollama_embedding_default
    (post : String → List (String × String) → HttpResponse)
    (text : String) : Except RequestError (List Rat) :=
  get_ollama_embedding post text "mxbai-embed-large"

/- ============ Step-execution loop (from the workflow demo) ============ -/

/-- A step dictionary as consumed by the workflow demo loop. -/
structure DemoStep where
  step : Nat
  description : String
deriving Repr, DecidableEq

/-- A result dictionary as produced by ExecutionAgent.execute in the
workflow demo. -/
structure DemoResult where
  success : Bool
  output : String
  error : Option String
deriving Repr, DecidableEq

/-- The step-execution loop of the 02 workflow-demo notebook, embedded
from the source: iterate the plan in order, execute each step (executor
abstracted as execute), append its result to the results list, and break
after appending the first result whose success flag is false. -/
def executionLoop (execute : DemoStep → DemoResult) :
    List DemoStep → List DemoResult
  | [] => []
  | s :: rest =>
    let result := execute s
    if result.success then result :: executionLoop execute rest
    else [result]

/- ===================== Shared concrete fixtures ===================== -/

/-- A sample stored record used to instantiate the theorems. -/
def sampleRec1 : MemoryRecord :=
  { rid := 1, text := "AgentCore is a powerful AI agent framework.",
    vector := [1], kind := "success", timestamp := 1, ttl_expiry := none }

/-- A sample stored record with a TTL. -/
def sampleRec2 : MemoryRecord :=
  { rid := 2, text := "The framework supports multiple deployment models.",
    vector := [2], kind := "error", timestamp := 2, ttl_expiry := some 5 }

/-- A sample stored record, the most recent one. -/
def sampleRec3 : MemoryRecord :=
  { rid := 3, text := "It includes tools for planning and execution.",
    vector := [3], kind := "success", timestamp := 3, ttl_expiry := none }

/-- A sample collection of dimension 1 and capacity 2. -/
def sampleMemory : VectorMemory :=
  { dimension := 1, max_items := 2, records := [sampleRec1, sampleRec2, sampleRec3] }

/- ===================== C1 ===================== -/

/-- C1: for every collection and query, search returns at most k results,
every returned record belongs to the collection, is not expired and
matches the kind filter, the results are ordered by descending similarity
with most-recent-timestamp tie-break, and an empty collection yields the
empty sequence rather than failing. -/
theorem search_memory_spec (m : VectorMemory) (sim : List Rat → Rat)
    (now k : Nat) (kf : Option String) :
    (m.search_memory sim now k kf).length ≤ k ∧
    (∀ p ∈ m.search_memory sim now k kf,
      p.1 ∈ m.records ∧ expiredAt now p.1 = false ∧ kindMatches kf p.1 = true) ∧
    (m.search_memory sim now k kf).Pairwise rankLE ∧
    (m.records = [] → m.search_memory sim now k kf = []) := by
  refine ⟨List.length_take_le k _, ?_, ?_, ?_⟩
  · intro p hp
    have hp2 : p ∈ (m.records.filter
        (fun r => !expiredAt now r && kindMatches kf r)).map
        (fun r => (r, sim r.vector)) := by
      have := List.mem_of_mem_take hp
      rwa [List.mem_insertionSort] at this
    obtain ⟨r, hr, hre⟩ := List.mem_map.mp hp2
    obtain ⟨hmem, hcond⟩ := List.mem_filter.mp hr
    rw [Bool.and_eq_true, Bool.not_eq_true'] at hcond
    cases hre
    exact ⟨hmem, hcond.1, hcond.2⟩
  · exact List.Pairwise.sublist (List.take_sublist k _)
      (List.sorted_insertionSort rankLE _)
  · intro h
    simp [VectorMemory.search_memory, h]

/-- C1 witness: the theorem applied to the sample collection. -/
theorem search_memory_spec_witness :
    (sampleMemory.search_memory (fun v => v.headI) 3 2 none).length ≤ 2 ∧
    (∀ p ∈ sampleMemory.search_memory (fun v => v.headI) 3 2 none,
      p.1 ∈ sampleMemory.records ∧ expiredAt 3 p.1 = false ∧
        kindMatches none p.1 = true) ∧
    (sampleMemory.search_memory (fun v => v.headI) 3 2 none).Pairwise rankLE ∧
    (sampleMemory.records = [] →
      sampleMemory.search_memory (fun v => v.headI) 3 2 none = []) :=
  search_memory_spec sampleMemory (fun v => v.headI) 3 2 none

/- ===================== C2 ===================== -/

/-- Eviction never changes the collection's declared dimension. -/
theorem evict_dimension (now : Nat) (m : VectorMemory) :
    (VectorMemory.evict now m).dimension = m.dimension := by
  simp only [VectorMemory.evict]
  split <;> rfl

/-- Eviction never changes the collection's declared capacity. -/
theorem evict_max_items (now : Nat) (m : VectorMemory) :
    (VectorMemory.evict now m).max_items = m.max_items := by
  simp only [VectorMemory.evict]
  split <;> rfl

/-- Every record surviving eviction was in the collection and is not
expired. -/
theorem mem_evict_records (now : Nat) (m : VectorMemory) (r : MemoryRecord)
    (hr : r ∈ (VectorMemory.evict now m).records) :
    r ∈ m.records ∧ expiredAt now r = false := by
  simp only [VectorMemory.evict] at hr
  have hfilter : r ∈ m.records.filter (fun x => !expiredAt now x) := by
    split at hr
    · exact hr
    · have := List.drop_subset _ _ hr
      rwa [List.mem_insertionSort] at this
  have := List.mem_filter.mp hfilter
  rw [Bool.not_eq_true'] at this
  exact this

/-- After eviction the collection is at or below capacity. -/
theorem evict_records_length_le (now : Nat) (m : VectorMemory) :
    (VectorMemory.evict now m).records.length ≤ m.max_items := by
  simp only [VectorMemory.evict]
  split
  case isTrue h => exact h
  case isFalse h =>
    simp only [List.length_drop, List.length_insertionSort]
    omega

/-- Eviction fixes any collection that is already within capacity and
holds no expired record. -/
theorem evict_fixed (now : Nat) (m : VectorMemory)
    (hlive : ∀ r ∈ m.records, expiredAt now r = false)
    (hlen : m.records.length ≤ m.max_items) :
    VectorMemory.evict now m = m := by
  have hfilter : m.records.filter (fun r => !expiredAt now r) = m.records :=
    List.filter_eq_self.mpr (fun r hr => by simp [hlive r hr])
  simp only [VectorMemory.evict]
  rw [hfilter, if_pos hlen]

/-- Eviction on a collection of non-expired records sorted by timestamp
keeps exactly the suffix of the max_items most recent records. -/
theorem evict_records_of_good (now : Nat) (m : VectorMemory)
    (hlive : ∀ r ∈ m.records, expiredAt now r = false)
    (hsorted : m.records.Pairwise tsLE) :
    (VectorMemory.evict now m).records
      = m.records.drop (m.records.length - m.max_items) := by
  have hfilter : m.records.filter (fun r => !expiredAt now r) = m.records :=
    List.filter_eq_self.mpr (fun r hr => by simp [hlive r hr])
  simp only [VectorMemory.evict]
  rw [hfilter]
  split
  case isTrue h =>
    rw [Nat.sub_eq_zero_of_le h, List.drop_zero]
  case isFalse h =>
    rw [List.Sorted.insertionSort_eq hsorted]

/-- Eviction is idempotent. -/
theorem evict_idempotent (now : Nat) (m : VectorMemory) :
    VectorMemory.evict now (VectorMemory.evict now m)
      = VectorMemory.evict now m := by
  apply evict_fixed
  · intro r hr
    exact (mem_evict_records now m r hr).2
  · rw [evict_max_items]
    exact evict_records_length_le now m

/-- Inserting a record never changes the collection's capacity. -/
theorem insertRecord_max_items (m : VectorMemory) (now : Nat)
    (r : MemoryRecord) : (m.insertRecord now r).max_items = m.max_items := by
  unfold VectorMemory.insertRecord
  rw [evict_max_items]

/-- Inserting a record never changes the collection's dimension. -/
theorem insertRecord_dimension (m : VectorMemory) (now : Nat)
    (r : MemoryRecord) : (m.insertRecord now r).dimension = m.dimension := by
  unfold VectorMemory.insertRecord
  rw [evict_dimension]

/-- A sequence of inserts never changes the collection's capacity. -/
theorem foldl_insertRecord_max_items (now : Nat) :
    ∀ (l : List MemoryRecord) (m0 : VectorMemory),
      (List.foldl (fun (acc : VectorMemory) r => acc.insertRecord now r) m0 l).max_items
        = m0.max_items
  | [], m0 => rfl
  | r :: rest, m0 => by
    rw [List.foldl_cons, foldl_insertRecord_max_items now rest,
      insertRecord_max_items]

/-- A sequence of inserts of non-expired records with weakly increasing
timestamps, starting from an empty collection, retains exactly the suffix
of the most recent records that fits the capacity. -/
theorem foldl_insertRecord_records (dim cap now : Nat)
    (l : List MemoryRecord)
    (hsorted : l.Pairwise tsLE)
    (hlive : ∀ r ∈ l, expiredAt now r = false) :
    (List.foldl (fun (acc : VectorMemory) r => acc.insertRecord now r)
        { dimension := dim, max_items := cap, records := [] } l).records
      = l.drop (l.length - cap) := by
  induction l using List.reverseRecOn with
  | nil => simp
  | append_singleton l2 x ih =>
    have hsorted2 : l2.Pairwise tsLE :=
      hsorted.sublist (List.sublist_append_left l2 [x])
    have hlast : ∀ a ∈ l2, tsLE a x := by
      intro a ha
      exact (List.pairwise_append.mp hsorted).2.2 a ha x (List.mem_singleton_self x)
    have hlive2 : ∀ r ∈ l2, expiredAt now r = false := fun r hr =>
      hlive r (List.mem_append_left [x] hr)
    have hlivex : expiredAt now x = false :=
      hlive x (List.mem_append_right l2 (List.mem_singleton_self x))
    have ih2 := ih hsorted2 hlive2
    rw [List.foldl_append, List.foldl_cons, List.foldl_nil]
    set macc := List.foldl (fun (acc : VectorMemory) r => acc.insertRecord now r)
      { dimension := dim, max_items := cap, records := [] } l2 with hmacc
    have hcap : macc.max_items = cap := foldl_insertRecord_max_items now l2 _
    set s := l2.drop (l2.length - cap) with hs
    have hsubset : ∀ r ∈ s, r ∈ l2 := fun r hr => List.drop_subset _ l2 hr
    have hslen : s.length = l2.length - (l2.length - cap) := List.length_drop _ _
    have hlives : ∀ r ∈ s ++ [x], expiredAt now r = false := by
      intro r hr
      rcases List.mem_append.mp hr with h | h
      · exact hlive2 r (hsubset r h)
      · rw [List.mem_singleton.mp h]
        exact hlivex
    have hsorteds : (s ++ [x]).Pairwise tsLE := by
      rw [List.pairwise_append]
      refine ⟨hsorted2.sublist (List.drop_sublist _ l2), List.pairwise_singleton _ _, ?_⟩
      intro a ha b hb
      rw [List.mem_singleton.mp hb]
      exact hlast a (hsubset a ha)
    unfold VectorMemory.insertRecord
    have hrecords : ({ macc with records := macc.records ++ [x] } : VectorMemory).records
        = s ++ [x] := by
      rw [ih2]
    rw [evict_records_of_good now _ (by rw [hrecords]; exact hlives)
      (by rw [hrecords]; exact hsorteds), hrecords]
    show (s ++ [x]).drop ((s ++ [x]).length - macc.max_items)
      = (l2 ++ [x]).drop ((l2 ++ [x]).length - cap)
    rw [hcap, List.length_append, List.length_append]
    by_cases hc : l2.length < cap
    · have h1 : s = l2 := by
        rw [hs, Nat.sub_eq_zero_of_le (Nat.le_of_lt hc), List.drop_zero]
      rw [h1]
    · push_neg at hc
      have h2 : s.length = cap := by omega
      have h3 : s ++ [x] = (l2 ++ [x]).drop (l2.length - cap) := by
        rw [List.drop_append_of_le_length (Nat.sub_le _ _), hs]
      rw [h3, List.drop_drop]
      congr 1
      simp only [List.length_singleton]
      omega

/-- C2: eviction is two-tier (expired records out first, then
oldest-by-timestamp down to capacity) and idempotent; no expired record
survives it; and after inserting more records than the capacity (with
weakly increasing timestamps, none expired) the collection holds exactly
the max_items most recent records. -/
theorem eviction_policy_spec (dim cap now : Nat) (m : VectorMemory)
    (l : List MemoryRecord)
    (hsorted : l.Pairwise tsLE)
    (hlive : ∀ r ∈ l, expiredAt now r = false)
    (hcap : cap < l.length) :
    VectorMemory.evict now (VectorMemory.evict now m)
      = VectorMemory.evict now m ∧
    (∀ r ∈ (VectorMemory.evict now m).records, expiredAt now r = false) ∧
    (List.foldl (fun (acc : VectorMemory) r => acc.insertRecord now r)
        { dimension := dim, max_items := cap, records := [] } l).records.length
      = cap ∧
    (List.foldl (fun (acc : VectorMemory) r => acc.insertRecord now r)
        { dimension := dim, max_items := cap, records := [] } l).records
      = l.drop (l.length - cap) := by
  have hrec := foldl_insertRecord_records dim cap now l hsorted hlive
  refine ⟨evict_idempotent now m,
    fun r hr => (mem_evict_records now m r hr).2, ?_, hrec⟩
  rw [hrec, List.length_drop]
  omega

/-- C2 witness: three inserts into a capacity-2 collection keep the two
most recent records, and eviction is idempotent on the sample
collection. -/
theorem eviction_policy_spec_witness :
    ([sampleRec1, sampleRec2, sampleRec3].Pairwise tsLE) ∧
    (∀ r ∈ [sampleRec1, sampleRec2, sampleRec3], expiredAt 3 r = false) ∧
    2 < ([sampleRec1, sampleRec2, sampleRec3] : List MemoryRecord).length ∧
    (VectorMemory.evict 3 (VectorMemory.evict 3 sampleMemory)
      = VectorMemory.evict 3 sampleMemory ∧
    (∀ r ∈ (VectorMemory.evict 3 sampleMemory).records, expiredAt 3 r = false) ∧
    (List.foldl (fun (acc : VectorMemory) r => acc.insertRecord 3 r)
        { dimension := 1, max_items := 2, records := [] }
        [sampleRec1, sampleRec2, sampleRec3]).records.length = 2 ∧
    (List.foldl (fun (acc : VectorMemory) r => acc.insertRecord 3 r)
        { dimension := 1, max_items := 2, records := [] }
        [sampleRec1, sampleRec2, sampleRec3]).records
      = [sampleRec1, sampleRec2, sampleRec3].drop
          ([sampleRec1, sampleRec2, sampleRec3].length - 2)) :=
  ⟨by decide, by decide, by decide,
    eviction_policy_spec 1 2 3 sampleMemory [sampleRec1, sampleRec2, sampleRec3]
      (by decide) (by decide) (by decide)⟩

/- ===================== C3 ===================== -/

/-- A transport that times out on every attempt exhausts the whole budget
and reports the last timeout. -/
theorem executeAttempts_all_timeout (transport : Nat → AttemptOutcome)
    (h : ∀ i, transport i = AttemptOutcome.timeout) :
    ∀ (rem a : Nat), 0 < rem →
      executeAttempts transport a rem =
        { success := false, output := none, error := some "timeout",
          attempt_count := a + rem - 1, exhausted := true }
  | 0, _, hrem => absurd hrem (by omega)
  | rem + 1, a, _ => by
    rw [executeAttempts, h a]
    by_cases hr : rem = 0
    · subst hr
      simp
    · rw [if_neg hr, executeAttempts_all_timeout transport h rem (a + 1) (by omega)]
      have harith : a + 1 + rem - 1 = a + (rem + 1) - 1 := by omega
      rw [harith]

/-- C3: the Dispatcher always hands back a terminal ToolResult — with a
tool that times out on every attempt, invoke returns a failure carrying
the last error with attempt_count equal to max_retries and the exhaustion
flag set; with a tool whose transport fails once and then succeeds on the
2nd of 3 allowed attempts, invoke returns success with
attempt_count 2. -/
theorem dispatcher_terminal_results (tA tB : Nat → AttemptOutcome)
    (n : Nat) (out : String)
    (hA : ∀ i, tA i = AttemptOutcome.timeout) (hn : 0 < n)
    (hB1 : (tB 1).isTransportFailure = true)
    (hB2 : tB 2 = AttemptOutcome.success out) :
    execute_tool tA n =
      { success := false, output := none, error := some "timeout",
        attempt_count := n, exhausted := true } ∧
    execute_tool tB 3 =
      { success := true, output := some out, error := none,
        attempt_count := 2, exhausted := false } := by
  constructor
  · rw [execute_tool, executeAttempts_all_timeout tA hA n 1 hn]
    have harith : 1 + n - 1 = n := by omega
    rw [harith]
  · rw [execute_tool]
    have h2 : executeAttempts tB 2 2 =
        { success := true, output := some out, error := none,
          attempt_count := 2, exhausted := false } := by
      rw [executeAttempts, hB2]
    rw [executeAttempts]
    cases h1 : tB 1 with
    | success o =>
      rw [h1] at hB1
      simp [AttemptOutcome.isTransportFailure] at hB1
    | logicalFailure m =>
      rw [h1] at hB1
      simp [AttemptOutcome.isTransportFailure] at hB1
    | timeout =>
      show (if (2 : Nat) = 0 then _ else executeAttempts tB 2 2) = _
      rw [if_neg (by omega : (2 : Nat) ≠ 0), h2]
    | transportError m =>
      show (if (2 : Nat) = 0 then _ else executeAttempts tB 2 2) = _
      rw [if_neg (by omega : (2 : Nat) ≠ 0), h2]

/-- C3 witness: the theorem at a concrete always-timeout transport and a
concrete transport succeeding on the second of three attempts. -/
theorem dispatcher_terminal_results_witness :
    execute_tool (fun _ => AttemptOutcome.timeout) 4 =
      { success := false, output := none, error := some "timeout",
        attempt_count := 4, exhausted := true } ∧
    execute_tool (fun i => if i = 2 then AttemptOutcome.success "ok"
        else AttemptOutcome.timeout) 3 =
      { success := true, output := some "ok", error := none,
        attempt_count := 2, exhausted := false } :=
  dispatcher_terminal_results (fun _ => AttemptOutcome.timeout)
    (fun i => if i = 2 then AttemptOutcome.success "ok"
      else AttemptOutcome.timeout) 4 "ok" (fun _ => rfl) (by decide)
    (by decide) (by decide)

/- ===================== C5 ===================== -/

/-- Every attempt strictly before the attempt the Dispatcher terminated
on was a transport-level failure. -/
theorem executeAttempts_earlier_transport (transport : Nat → AttemptOutcome) :
    ∀ (rem a i : Nat), a ≤ i →
      i < (executeAttempts transport a rem).attempt_count →
      (transport i).isTransportFailure = true
  | 0, a, i, hai, hlt => by
    rw [executeAttempts] at hlt
    simp only at hlt
    omega
  | rem + 1, a, i, hai, hlt => by
    rw [executeAttempts] at hlt
    split at hlt
    · simp only at hlt
      omega
    · simp only at hlt
      omega
    · rename_i heq
      by_cases hr : rem = 0
      · rw [if_pos hr] at hlt
        simp only at hlt
        omega
      · rw [if_neg hr] at hlt
        rcases Nat.eq_or_lt_of_le hai with he | hgt
        · rw [← he, heq]
          rfl
        · exact executeAttempts_earlier_transport transport rem (a + 1) i hgt hlt
    · rename_i m heq
      by_cases hr : rem = 0
      · rw [if_pos hr] at hlt
        simp only at hlt
        omega
      · rw [if_neg hr] at hlt
        rcases Nat.eq_or_lt_of_le hai with he | hgt
        · rw [← he, heq]
          rfl
        · exact executeAttempts_earlier_transport transport rem (a + 1) i hgt hlt

/-- A logical failure within the budget, preceded only by transport
failures, terminates the loop at exactly that attempt, unretried and not
marked exhausted. -/
theorem executeAttempts_logical_stops (transport : Nat → AttemptOutcome)
    (msg : String) :
    ∀ (rem a j : Nat), a ≤ j → j < a + rem →
      (∀ i, a ≤ i → i < j → (transport i).isTransportFailure = true) →
      transport j = AttemptOutcome.logicalFailure msg →
      executeAttempts transport a rem =
        { success := false, output := none, error := some msg,
          attempt_count := j, exhausted := false }
  | 0, a, j, haj, hjr, _, _ => absurd hjr (by omega)
  | rem + 1, a, j, haj, hjr, hpre, hj => by
    rw [executeAttempts]
    rcases Nat.eq_or_lt_of_le haj with he | hgt
    · rw [he, hj]
    · have hta : (transport a).isTransportFailure = true :=
        hpre a (Nat.le_refl a) hgt
      have hr : rem ≠ 0 := by omega
      have hrec := executeAttempts_logical_stops transport msg rem (a + 1) j
        hgt (by omega) (fun i h1 h2 => hpre i (by omega) h2) hj
      split
      · rename_i o heq
        rw [heq] at hta
        simp [AttemptOutcome.isTransportFailure] at hta
      · rename_i m heq
        rw [heq] at hta
        simp [AttemptOutcome.isTransportFailure] at hta
      · rw [if_neg hr]
        exact hrec
      · rw [if_neg hr]
        exact hrec

/-- C5: a retry is triggered only by a transport-level failure — every
attempt before the terminal one was a timeout or transient transport
error — and a tool-reported logical failure is never retried: it is the
terminal result of the invocation at exactly the attempt that reported
it, with no exhaustion. -/
theorem retry_only_transport (transport : Nat → AttemptOutcome)
    (n j : Nat) (msg : String)
    (hj1 : 1 ≤ j) (hjn : j ≤ n)
    (hpre : ∀ i, 1 ≤ i → i < j → (transport i).isTransportFailure = true)
    (hj : transport j = AttemptOutcome.logicalFailure msg) :
    (∀ (t : Nat → AttemptOutcome) (k i : Nat), 1 ≤ i →
      i < (execute_tool t k).attempt_count →
      (t i).isTransportFailure = true) ∧
    execute_tool transport n =
      { success := false, output := none, error := some msg,
        attempt_count := j, exhausted := false } := by
  constructor
  · intro t k i h1 h2
    exact executeAttempts_earlier_transport t k 1 i h1 h2
  · rw [execute_tool]
    exact executeAttempts_logical_stops transport msg n 1 j hj1 (by omega) hpre hj

/-- C5 witness: a transport failing transiently on attempt 1 and
reporting a logical failure on attempt 2 terminates a 5-attempt budget at
attempt 2. -/
theorem retry_only_transport_witness :
    (∀ (t : Nat → AttemptOutcome) (k i : Nat), 1 ≤ i →
      i < (execute_tool t k).attempt_count →
      (t i).isTransportFailure = true) ∧
    execute_tool (fun i => if i = 2 then AttemptOutcome.logicalFailure "cannot comply"
        else AttemptOutcome.timeout) 5 =
      { success := false, output := none, error := some "cannot comply",
        attempt_count := 2, exhausted := false } :=
  retry_only_transport
    (fun i => if i = 2 then AttemptOutcome.logicalFailure "cannot comply"
      else AttemptOutcome.timeout) 5 2 "cannot comply" (by decide) (by decide)
    (fun i h1 h2 => by
      have hi : i = 1 := by omega
      rw [hi]
      rfl)
    (by decide)

/- ===================== C4 ===================== -/

/-- C4: a generation response in which no line matches the numbering
convention parses to the empty plan (not an error), and the Workflow
Engine given an empty plan transitions directly to Aborted with reason
EmptyPlan, producing no outcomes and no exception. -/
theorem empty_plan_aborts (generate : String → String)
    (exec : PlanStep → StepOutcome) (task : String)
    (hbad : ∀ line ∈ splitLines (generate task).toList,
      parseLineChars line = none) :
    PlanningAgent.plan (generate task) = [] ∧
    WorkflowEngine.run generate exec task =
      ([], RunStatus.Aborted AbortReason.EmptyPlan) := by
  have h1 : (splitLines (generate task).toList).filterMap parseLineChars = [] :=
    List.filterMap_eq_nil_iff.mpr hbad
  have h2 : PlanningAgent.plan (generate task) = [] := by
    unfold PlanningAgent.plan
    rw [h1]
    rfl
  refine ⟨h2, ?_⟩
  unfold WorkflowEngine.run
  rw [h2]
  rfl

/-- A trivial step executor used to instantiate the engine theorems. -/
def trivialExec (s : PlanStep) : StepOutcome :=
  { step_index := s.index, success := true, output := "", error := none }

/-- C4 witness: a response with no numbered line aborts the run with
EmptyPlan. -/
theorem empty_plan_aborts_witness :
    PlanningAgent.plan ((fun _ => "no steps found here") "any task") = [] ∧
    WorkflowEngine.run (fun _ => "no steps found here") trivialExec
      "any task" = ([], RunStatus.Aborted AbortReason.EmptyPlan) :=
  empty_plan_aborts (fun _ => "no steps found here") trivialExec
    "any task" (by decide)

/- ===================== C6 ===================== -/

/-- Insert leaves the collection's declared dimension and capacity
unchanged whenever it succeeds. -/
theorem insert_preserves_declaration (m : VectorMemory)
    (oracle : List EmbedResponse) (now : Nat) (text kind : String)
    (rid : Nat) (ttl : Option Nat) (m2 : VectorMemory)
    (h : (m.insert oracle now text kind rid ttl).1 = Except.ok m2) :
    m2.dimension = m.dimension ∧ m2.max_items = m.max_items := by
  match oracle with
  | [] => exact absurd h (by simp [VectorMemory.insert])
  | Except.error e :: rest => exact absurd h (by simp [VectorMemory.insert])
  | Except.ok v :: rest =>
    rw [VectorMemory.insert] at h
    by_cases hv : v.length = m.dimension
    · rw [if_pos hv] at h
      simp only [Except.ok.injEq] at h
      rw [← h]
      exact ⟨insertRecord_dimension m now _, insertRecord_max_items m now _⟩
    · rw [if_neg hv] at h
      exact absurd h (by simp)

/-- C6: an erroring embedding call fails insert with EmbeddingUnavailable
and is not retried (insert consumes exactly one oracle response, whatever
happens); an embedding whose dimension disagrees with the collection's
fixed dimension fails insert with DimensionMismatch; and a successful
insert never changes the collection's declared dimension or capacity. -/
theorem insert_error_modes (m : VectorMemory) (e : String) (v : List Rat)
    (rest oracle : List EmbedResponse) (now : Nat) (text kind : String)
    (rid : Nat) (ttl : Option Nat)
    (hdim : v.length ≠ m.dimension) :
    m.insert (Except.error e :: rest) now text kind rid ttl =
      (Except.error InsertError.EmbeddingUnavailable, rest) ∧
    m.insert (Except.ok v :: rest) now text kind rid ttl =
      (Except.error InsertError.DimensionMismatch, rest) ∧
    (m.insert oracle now text kind rid ttl).2 = oracle.tail ∧
    (∀ m2, (m.insert oracle now text kind rid ttl).1 = Except.ok m2 →
      m2.dimension = m.dimension ∧ m2.max_items = m.max_items) := by
  refine ⟨rfl, ?_, ?_, ?_⟩
  · rw [VectorMemory.insert, if_neg hdim]
  · match oracle with
    | [] => rfl
    | Except.error e2 :: rest2 => rfl
    | Except.ok v2 :: rest2 =>
      rw [VectorMemory.insert]
      by_cases hv : v2.length = m.dimension
      · rw [if_pos hv]
        rfl
      · rw [if_neg hv]
        rfl
  · intro m2 h
    exact insert_preserves_declaration m oracle now text kind rid ttl m2 h

/-- C6 witness: the theorem at the sample collection with a
wrong-dimension vector and an erroring embedding response. -/
theorem insert_error_modes_witness :
    ([(1 : Rat), 2] : List Rat).length ≠ sampleMemory.dimension ∧
    (sampleMemory.insert (Except.error "connection refused"
        :: [Except.ok [(4 : Rat)]]) 9 "t" "fact" 9 none =
      (Except.error InsertError.EmbeddingUnavailable, [Except.ok [(4 : Rat)]]) ∧
    sampleMemory.insert (Except.ok [(1 : Rat), 2]
        :: [Except.ok [(4 : Rat)]]) 9 "t" "fact" 9 none =
      (Except.error InsertError.DimensionMismatch, [Except.ok [(4 : Rat)]]) ∧
    (sampleMemory.insert [Except.ok [(4 : Rat)]] 9 "t" "fact" 9 none).2 =
      ([Except.ok [(4 : Rat)]] : List EmbedResponse).tail ∧
    (∀ m2, (sampleMemory.insert [Except.ok [(4 : Rat)]] 9 "t" "fact" 9
        none).1 = Except.ok m2 →
      m2.dimension = sampleMemory.dimension ∧
        m2.max_items = sampleMemory.max_items)) :=
  ⟨by decide,
    insert_error_modes sampleMemory "connection refused" [(1 : Rat), 2]
      [Except.ok [(4 : Rat)]] [Except.ok [(4 : Rat)]] 9 "t" "fact" 9 none
      (by decide)⟩

/- ===================== C7 ===================== -/

/-- Numbering preserves the parsed descriptions, in order. -/
theorem numberSteps_descriptions :
    ∀ (i : Nat) (ds : List String),
      (numberSteps i ds).map (fun s => s.description) = ds
  | _, [] => rfl
  | i, d :: rest => by
    rw [numberSteps, List.map_cons, numberSteps_descriptions (i + 1) rest]

/-- Numbering assigns consecutive indices starting at i. -/
theorem numberSteps_indices :
    ∀ (i : Nat) (ds : List String),
      (numberSteps i ds).map (fun s => s.index) = List.range' i ds.length
  | _, [] => rfl
  | i, d :: rest => by
    rw [numberSteps, List.map_cons, numberSteps_indices (i + 1) rest,
      List.length_cons, List.range']

/-- Numbered steps carry no tool hint and start out pending. -/
theorem numberSteps_fresh :
    ∀ (i : Nat) (ds : List String), ∀ s ∈ numberSteps i ds,
      s.tool_hint = none ∧ s.status = StepStatus.pending
  | _, [], s, hs => absurd hs (List.not_mem_nil s)
  | i, d :: rest, s, hs => by
    rw [numberSteps, List.mem_cons] at hs
    rcases hs with hs | hs
    · rw [hs]
      exact ⟨rfl, rfl⟩
    · exact numberSteps_fresh (i + 1) rest s hs

/-- On a prefix of digits, takeWhile keeps exactly the digits and
dropWhile stops at the dot. -/
theorem digits_split :
    ∀ (ds tail : List Char), (∀ c ∈ ds, c.isDigit = true) →
      (ds ++ '.' :: tail).takeWhile Char.isDigit = ds ∧
      (ds ++ '.' :: tail).dropWhile Char.isDigit = '.' :: tail
  | [], tail, _ => by
    constructor
    · rw [List.nil_append, List.takeWhile_cons]
      simp
    · rw [List.nil_append, List.dropWhile_cons]
      simp
  | c :: ds, tail, h => by
    have hc : c.isDigit = true := h c (List.mem_cons_self c ds)
    have hrest := digits_split ds tail (fun x hx => h x (List.mem_cons_of_mem c hx))
    constructor
    · rw [List.cons_append, List.takeWhile_cons, hc, if_pos rfl, hrest.1]
    · rw [List.cons_append, List.dropWhile_cons, hc, if_pos rfl, hrest.2]

/-- A line consisting of a non-empty digit numbering, a dot and a tail
parses to the tail without its leading spaces. -/
theorem parseLineChars_matching (ds tail : List Char)
    (hne : ds ≠ []) (hdig : ∀ c ∈ ds, c.isDigit = true) :
    parseLineChars (ds ++ '.' :: tail) = some (stripLeadingSpaces tail) := by
  have hsplit := digits_split ds tail hdig
  rw [parseLineChars]
  simp only [hsplit.1, hsplit.2]
  rw [if_neg (by simpa [List.isEmpty_iff] using hne)]

/-- A line that does not start with a digit never parses to a step. -/
theorem parseLineChars_nonDigit (c : Char) (cs : List Char)
    (hc : c.isDigit = false) : parseLineChars (c :: cs) = none := by
  rw [parseLineChars]
  simp only [List.takeWhile_cons, hc]
  rfl

/-- C7: the Planner parses the generation response line by line against
the numbering convention — the plan's descriptions are exactly the parsed
contents of the matching lines in response order, steps are numbered
consecutively from 1 with no tool hint and pending status, a digits-dot
line parses to its description, and a line not starting with a digit is
dropped. -/
theorem planner_parse_spec (response : String) (ds tail : List Char)
    (c0 : Char) (cs0 : List Char)
    (hne : ds ≠ []) (hdig : ∀ c ∈ ds, c.isDigit = true)
    (hc0 : c0.isDigit = false) :
    (PlanningAgent.plan response).map (fun s => s.description)
      = ((splitLines response.toList).filterMap parseLineChars).map
          (fun cs => String.mk cs) ∧
    (PlanningAgent.plan response).map (fun s => s.index)
      = List.range' 1
          ((splitLines response.toList).filterMap parseLineChars).length ∧
    (∀ s ∈ PlanningAgent.plan response,
      s.tool_hint = none ∧ s.status = StepStatus.pending) ∧
    parseLineChars (ds ++ '.' :: tail) = some (stripLeadingSpaces tail) ∧
    parseLineChars (c0 :: cs0) = none := by
  refine ⟨?_, ?_, ?_, parseLineChars_matching ds tail hne hdig,
    parseLineChars_nonDigit c0 cs0 hc0⟩
  · rw [PlanningAgent.plan, numberSteps_descriptions]
  · rw [PlanningAgent.plan, numberSteps_indices, List.length_map]
  · intro s hs
    rw [PlanningAgent.plan] at hs
    exact numberSteps_fresh 1 _ s hs

/-- C7 witness: a three-line response with one non-matching line parses
to two numbered steps. -/
theorem planner_parse_spec_witness :
    (PlanningAgent.plan "1. gather data\nnot a step\n2. write summary").map
        (fun s => s.description)
      = ((splitLines
            "1. gather data\nnot a step\n2. write summary".toList).filterMap
          parseLineChars).map (fun cs => String.mk cs) ∧
    (PlanningAgent.plan "1. gather data\nnot a step\n2. write summary").map
        (fun s => s.index)
      = List.range' 1
          ((splitLines
              "1. gather data\nnot a step\n2. write summary".toList).filterMap
            parseLineChars).length ∧
    (∀ s ∈ PlanningAgent.plan "1. gather data\nnot a step\n2. write summary",
      s.tool_hint = none ∧ s.status = StepStatus.pending) ∧
    parseLineChars (['4', '2'] ++ '.' :: " chart interest".toList)
      = some (stripLeadingSpaces " chart interest".toList) ∧
    parseLineChars ('n' :: "ot a step".toList) = none :=
  planner_parse_spec "1. gather data\nnot a step\n2. write summary"
    ['4', '2'] " chart interest".toList 'n' "ot a step".toList
    (by decide) (by decide) (by decide)

/- ===================== C8 ===================== -/

/-- A probe never changes a descriptor's name. -/
theorem probeDescriptor_name (alive : String → Bool) (now : Nat)
    (d : ToolDescriptor) : (probeDescriptor alive now d).name = d.name := by
  unfold probeDescriptor
  split <;> rfl

/-- Looking a tool up by name commutes with probing the registry. -/
theorem find?_probe_all (reg : ToolRegistry) (alive : String → Bool)
    (now : Nat) (tool_name : String) (d : ToolDescriptor)
    (hfind : reg.tools.find? (fun t => t.name == tool_name) = some d) :
    (reg.probe_all alive now).tools.find? (fun t => t.name == tool_name)
      = some (probeDescriptor alive now d) := by
  unfold ToolRegistry.probe_all
  rw [List.find?_map]
  have hcomp : ((fun t : ToolDescriptor => t.name == tool_name) ∘
      probeDescriptor alive now)
      = fun t : ToolDescriptor => t.name == tool_name := by
    funext t
    simp [Function.comp, probeDescriptor_name]
  rw [hcomp, hfind]
  rfl

/-- Resolution succeeds on a registered, healthy, capable tool. -/
theorem resolve_healthy (rg : ToolRegistry) (nm : String) (rq : List String)
    (t : ToolDescriptor)
    (hsome : rg.tools.find? (fun t2 => t2.name == nm) = some t)
    (hhealthy : t.consecutive_failures < rg.unhealthy_threshold)
    (hcap : t.hasCapabilities rq = true) :
    rg.resolve nm rq = Except.ok t := by
  rw [ToolRegistry.resolve, hsome]
  simp only
  rw [if_neg (by omega), if_pos hcap]

/-- C8: resolve fails with ToolNotFound when no registered tool has the
requested name, fails with ToolUnavailable when the named tool's
consecutive_failures is at or above the unhealthy threshold or a required
capability is missing, and a tool made unavailable by failures is
restored by the next successful probe. -/
theorem registry_resolve_spec (reg : ToolRegistry) (tool_name : String)
    (req : List String) (d : ToolDescriptor) (alive : String → Bool)
    (now : Nat)
    (hfind : reg.tools.find? (fun t => t.name == tool_name) = some d)
    (halive : alive d.name = true)
    (hcaps : d.hasCapabilities req = true)
    (hthr : 0 < reg.unhealthy_threshold) :
    (∀ (rg : ToolRegistry) (nm : String) (rq : List String),
      rg.tools.find? (fun t => t.name == nm) = none →
      rg.resolve nm rq = Except.error ResolveError.ToolNotFound) ∧
    (∀ (rg : ToolRegistry) (nm : String) (rq : List String)
        (t : ToolDescriptor),
      rg.tools.find? (fun t2 => t2.name == nm) = some t →
      rg.unhealthy_threshold ≤ t.consecutive_failures →
      rg.resolve nm rq = Except.error ResolveError.ToolUnavailable) ∧
    (∀ (rg : ToolRegistry) (nm : String) (rq : List String)
        (t : ToolDescriptor),
      rg.tools.find? (fun t2 => t2.name == nm) = some t →
      t.hasCapabilities rq = false →
      rg.resolve nm rq = Except.error ResolveError.ToolUnavailable) ∧
    (reg.probe_all alive now).resolve tool_name req =
      Except.ok { d with consecutive_failures := 0, last_seen_healthy := now }
    := by
  refine ⟨?_, ?_, ?_, ?_⟩
  · intro rg nm rq hnone
    rw [ToolRegistry.resolve, hnone]
  · intro rg nm rq t hsome hunhealthy
    rw [ToolRegistry.resolve, hsome]
    simp only
    rw [if_pos hunhealthy]
  · intro rg nm rq t hsome hnocaps
    rw [ToolRegistry.resolve, hsome]
    simp only
    by_cases hu : rg.unhealthy_threshold ≤ t.consecutive_failures
    · rw [if_pos hu]
    · rw [if_neg hu, hnocaps]
      rfl
  · have hfind2 := find?_probe_all reg alive now tool_name d hfind
    have hprobe : probeDescriptor alive now d =
        { d with consecutive_failures := 0, last_seen_healthy := now } := by
      unfold probeDescriptor
      rw [if_pos halive]
    rw [hprobe] at hfind2
    exact resolve_healthy _ _ _ _ hfind2 hthr hcaps

/-- A sample descriptor of a tool that has failed five probes. -/
def sampleTool : ToolDescriptor :=
  { name := "chart_generator",
    endpoint := "http://chart-generator:8000",
    capabilities := ["charts"],
    last_seen_healthy := 0,
    consecutive_failures := 5 }

/-- A sample registry holding one unhealthy tool. -/
def sampleRegistry : ToolRegistry :=
  { tools := [sampleTool], unhealthy_threshold := 3 }

/-- C8 witness: probing the sample registry restores its unhealthy
tool. -/
theorem registry_resolve_spec_witness :
    sampleRegistry.tools.find? (fun t => t.name == "chart_generator")
      = some sampleTool ∧
    ((∀ (rg : ToolRegistry) (nm : String) (rq : List String),
      rg.tools.find? (fun t => t.name == nm) = none →
      rg.resolve nm rq = Except.error ResolveError.ToolNotFound) ∧
    (∀ (rg : ToolRegistry) (nm : String) (rq : List String)
        (t : ToolDescriptor),
      rg.tools.find? (fun t2 => t2.name == nm) = some t →
      rg.unhealthy_threshold ≤ t.consecutive_failures →
      rg.resolve nm rq = Except.error ResolveError.ToolUnavailable) ∧
    (∀ (rg : ToolRegistry) (nm : String) (rq : List String)
        (t : ToolDescriptor),
      rg.tools.find? (fun t2 => t2.name == nm) = some t →
      t.hasCapabilities rq = false →
      rg.resolve nm rq = Except.error ResolveError.ToolUnavailable) ∧
    (sampleRegistry.probe_all (fun _ => true) 7).resolve "chart_generator"
        ["charts"] =
      Except.ok
        { sampleTool with consecutive_failures := 0, last_seen_healthy := 7 })
    :=
  ⟨by decide,
    registry_resolve_spec sampleRegistry "chart_generator" ["charts"]
      sampleTool (fun _ => true) 7 (by decide) (by decide) (by decide)
      (by decide)⟩

/- ===================== C9 ===================== -/

/-- The request get_ollama_embedding sends: the fixed Ollama embeddings
endpoint with the model and prompt payload. -/
def ollamaResponse
    (post : String → List (String × String) → HttpResponse)
    (text model : String) : HttpResponse :=
  post "http://localhost:11434/api/embeddings"
    [("model", model), ("prompt", text)]

/-- C9: when the POST to the Ollama embeddings endpoint yields an error
status, get_ollama_embedding raises via raise_for_status and returns no
value; on a successful status it returns exactly the embedding field of
the response JSON; whenever it returns a value at all, that value is the
embedding field of the response — never a substitute — and the model
argument defaults to mxbai-embed-large. -/
theorem get_ollama_embedding_spec
    (postErr postOk : String → List (String × String) → HttpResponse)
    (text model : String) (v : List Rat)
    (hErr : 400 ≤ (ollamaResponse postErr text model).status_code ∧
      (ollamaResponse postErr text model).status_code < 600)
    (hOkStatus : ¬(400 ≤ (ollamaResponse postOk text model).status_code ∧
      (ollamaResponse postOk text model).status_code < 600))
    (hField : List.lookup "embedding" (ollamaResponse postOk text model).body
      = some v) :
    get_ollama_embedding postErr text model =
      Except.error (RequestError.HTTPStatusError
        (ollamaResponse postErr text model).status_code) ∧
    get_ollama_embedding postOk text model = Except.ok v ∧
    (∀ (post : String → List (String × String) → HttpResponse)
        (w : List Rat),
      get_ollama_embedding post text model = Except.ok w →
      List.lookup "embedding" (ollamaResponse post text model).body
        = some w) ∧
    (∀ (post2 : String → List (String × String) → HttpResponse)
        (text2 : String),
      get_ollama_embedding_default post2 text2
        = get_ollama_embedding post2 text2 "mxbai-embed-large") := by
  refine ⟨?_, ?_, ?_, fun post2 text2 => rfl⟩
  · rw [get_ollama_embedding]
    show (match raise_for_status (ollamaResponse postErr text model) with
      | Except.error e => Except.error e
      | Except.ok _ =>
        match List.lookup "embedding"
            (ollamaResponse postErr text model).body with
        | some v => Except.ok v
        | none => Except.error (RequestError.KeyMissing "embedding")) = _
    rw [raise_for_status, if_pos hErr]
  · rw [get_ollama_embedding]
    show (match raise_for_status (ollamaResponse postOk text model) with
      | Except.error e => Except.error e
      | Except.ok _ =>
        match List.lookup "embedding"
            (ollamaResponse postOk text model).body with
        | some v => Except.ok v
        | none => Except.error (RequestError.KeyMissing "embedding")) = _
    rw [raise_for_status, if_neg hOkStatus, hField]
  · intro post w h
    rw [get_ollama_embedding] at h
    revert h
    show (match raise_for_status (ollamaResponse post text model) with
      | Except.error e => Except.error e
      | Except.ok _ =>
        match List.lookup "embedding"
            (ollamaResponse post text model).body with
        | some v => Except.ok v
        | none => Except.error (RequestError.KeyMissing "embedding"))
      = Except.ok w →
      List.lookup "embedding" (ollamaResponse post text model).body = some w
    intro h
    cases hrs : raise_for_status (ollamaResponse post text model) with
    | error e =>
      rw [hrs] at h
      exact absurd h (by simp)
    | ok u =>
      rw [hrs] at h
      cases hlk : List.lookup "embedding"
          (ollamaResponse post text model).body with
      | some u2 =>
        rw [hlk] at h
        simp only [Except.ok.injEq] at h
        rw [h]
      | none =>
        rw [hlk] at h
        exact absurd h (by simp)

/-- C9 witness: a 500 response raises, a 200 response returns exactly the
embedding field. -/
theorem get_ollama_embedding_spec_witness :
    (400 ≤ (ollamaResponse (fun _ _ => { status_code := 500, body := [] })
        "hello" "mxbai-embed-large").status_code ∧
      (ollamaResponse (fun _ _ => { status_code := 500, body := [] })
        "hello" "mxbai-embed-large").status_code < 600) ∧
    (get_ollama_embedding (fun _ _ => { status_code := 500, body := [] })
        "hello" "mxbai-embed-large" =
      Except.error (RequestError.HTTPStatusError 500) ∧
    get_ollama_embedding
        (fun _ _ => { status_code := 200, body := [("embedding", [1, 2])] })
        "hello" "mxbai-embed-large" = Except.ok [1, 2] ∧
    (∀ (post : String → List (String × String) → HttpResponse)
        (w : List Rat),
      get_ollama_embedding post "hello" "mxbai-embed-large" = Except.ok w →
      List.lookup "embedding"
          (ollamaResponse post "hello" "mxbai-embed-large").body = some w) ∧
    (∀ (post2 : String → List (String × String) → HttpResponse)
        (text2 : String),
      get_ollama_embedding_default post2 text2
        = get_ollama_embedding post2 text2 "mxbai-embed-large")) :=
  ⟨by decide,
    get_ollama_embedding_spec (fun _ _ => { status_code := 500, body := [] })
      (fun _ _ => { status_code := 200, body := [("embedding", [1, 2])] })
      "hello" "mxbai-embed-large" [1, 2] (by decide) (by decide) (by decide)⟩

/- ===================== C10 ===================== -/

/-- The loop's results are the executor's outputs over a prefix of the
plan, in plan order, one outcome per executed step. -/
theorem executionLoop_take_map (execute : DemoStep → DemoResult) :
    ∀ plan : List DemoStep, ∃ k, k ≤ plan.length ∧
      executionLoop execute plan = (plan.take k).map execute
  | [] => ⟨0, Nat.le_refl 0, rfl⟩
  | s :: rest => by
    rw [executionLoop]
    by_cases hs : (execute s).success
    · obtain ⟨k, hk, he⟩ := executionLoop_take_map execute rest
      refine ⟨k + 1, by simpa using Nat.succ_le_succ hk, ?_⟩
      rw [if_pos hs, he, List.take_succ_cons, List.map_cons]
    · refine ⟨1, by simp, ?_⟩
      rw [if_neg hs, List.take_succ_cons, List.take_zero, List.map_cons,
        List.map_nil]

/-- Every result before the last one in the loop's output succeeded. -/
theorem executionLoop_dropLast_success (execute : DemoStep → DemoResult) :
    ∀ plan : List DemoStep, ∀ r ∈ (executionLoop execute plan).dropLast,
      r.success = true
  | [], r, hr => absurd hr (List.not_mem_nil r)
  | s :: rest, r, hr => by
    rw [executionLoop] at hr
    by_cases hs : (execute s).success
    · rw [if_pos hs] at hr
      cases he : executionLoop execute rest with
      | nil =>
        rw [he, List.dropLast_single] at hr
        exact absurd hr (List.not_mem_nil r)
      | cons r2 rest2 =>
        rw [he, List.dropLast_cons₂, List.mem_cons] at hr
        rcases hr with hr | hr
        · rw [hr]
          exact hs
        · have := executionLoop_dropLast_success execute rest r
          rw [he] at this
          exact this hr
    · rw [if_neg hs, List.dropLast_single] at hr
      exact absurd hr (List.not_mem_nil r)

/-- The loop reports at most one failed outcome. -/
theorem executionLoop_at_most_one_failure (execute : DemoStep → DemoResult) :
    ∀ plan : List DemoStep,
      (executionLoop execute plan).countP (fun r => !r.success) ≤ 1
  | [] => Nat.le_of_lt_succ (by simp [executionLoop])
  | s :: rest => by
    rw [executionLoop]
    by_cases hs : (execute s).success
    · rw [if_pos hs, List.countP_cons]
      have h0 : (!(execute s).success : Bool) = false := by
        rw [hs]
        rfl
      rw [h0]
      simpa using executionLoop_at_most_one_failure execute rest
    · rw [if_neg hs]
      simp only [List.countP_cons, List.countP_nil, Nat.zero_add]
      split <;> omega

/-- The loop stops exactly at the first failing step: successes up to it
are all reported, and nothing after it runs. -/
theorem executionLoop_stops_at_first_failure (execute : DemoStep → DemoResult) :
    ∀ (pre : List DemoStep) (s : DemoStep) (post : List DemoStep),
      (∀ p ∈ pre, (execute p).success = true) →
      (execute s).success = false →
      executionLoop execute (pre ++ s :: post)
        = pre.map execute ++ [execute s]
  | [], s, post, _, hs => by
    rw [List.nil_append, executionLoop, if_neg (by rw [hs]; exact Bool.false_ne_true),
      List.map_nil, List.nil_append]
  | p :: pre, s, post, hpre, hs => by
    rw [List.cons_append, executionLoop,
      if_pos (hpre p (List.mem_cons_self p pre)),
      executionLoop_stops_at_first_failure execute pre s post
        (fun q hq => hpre q (List.mem_cons_of_mem p hq)) hs,
      List.map_cons, List.cons_append]

/-- C10: the workflow demo's step loop executes steps strictly in plan
order, appends exactly one outcome per executed step, and stops at the
first outcome whose success flag is false — so every outcome before the
last succeeded, at most one outcome is a failure, and the results are the
executor's outputs on a plan prefix ending at the first failure. -/
theorem execution_loop_spec (execute : DemoStep → DemoResult)
    (plan : List DemoStep) :
    (∃ k, k ≤ plan.length ∧
      executionLoop execute plan = (plan.take k).map execute) ∧
    (∀ r ∈ (executionLoop execute plan).dropLast, r.success = true) ∧
    (executionLoop execute plan).countP (fun r => !r.success) ≤ 1 ∧
    (∀ (pre : List DemoStep) (s : DemoStep) (post : List DemoStep),
      plan = pre ++ s :: post →
      (∀ p ∈ pre, (execute p).success = true) →
      (execute s).success = false →
      executionLoop execute plan = pre.map execute ++ [execute s]) :=
  ⟨executionLoop_take_map execute plan,
    executionLoop_dropLast_success execute plan,
    executionLoop_at_most_one_failure execute plan,
    fun pre s post hplan hpre hs => by
      rw [hplan]
      exact executionLoop_stops_at_first_failure execute pre s post hpre hs⟩

/-- A sample demo executor failing exactly on step 2. -/
def sampleExecute (s : DemoStep) : DemoResult :=
  if s.step = 2 then
    { success := false, output := "", error := some "tool timeout" }
  else
    { success := true, output := "done", error := none }

/-- C10 witness: the theorem at a three-step plan whose second step
fails. -/
theorem execution_loop_spec_witness :
    (∃ k, k ≤ ([{ step := 1, description := "a" },
        { step := 2, description := "b" },
        { step := 3, description := "c" }] : List DemoStep).length ∧
      executionLoop sampleExecute [{ step := 1, description := "a" },
          { step := 2, description := "b" },
          { step := 3, description := "c" }]
        = (([{ step := 1, description := "a" },
            { step := 2, description := "b" },
            { step := 3, description := "c" }] : List DemoStep).take k).map
            sampleExecute) ∧
    (∀ r ∈ (executionLoop sampleExecute [{ step := 1, description := "a" },
        { step := 2, description := "b" },
        { step := 3, description := "c" }]).dropLast, r.success = true) ∧
    (executionLoop sampleExecute [{ step := 1, description := "a" },
        { step := 2, description := "b" },
        { step := 3, description := "c" }]).countP
      (fun r => !r.success) ≤ 1 ∧
    (∀ (pre : List DemoStep) (s : DemoStep) (post : List DemoStep),
      ([{ step := 1, description := "a" }, { step := 2, description := "b" },
        { step := 3, description := "c" }] : List DemoStep)
        = pre ++ s :: post →
      (∀ p ∈ pre, (sampleExecute p).success = true) →
      (sampleExecute s).success = false →
      executionLoop sampleExecute [{ step := 1, description := "a" },
          { step := 2, description := "b" },
          { step := 3, description := "c" }]
        = pre.map sampleExecute ++ [sampleExecute s]) :=
  execution_loop_spec sampleExecute
    [{ step := 1, description := "a" }, { step := 2, description := "b" },
      { step := 3, description := "c" }]
